import Mathlib

/-!
Verification development for the simple-one-api core:
the service registry / selection engine (`pkg/config/config.go`) and the
Coze protocol adapter (`pkg/handler/openai_cozecn_handler.go`).

Shallow embedding conventions:
* Go `int` is modelled as `Int`; comparisons (`> 0`) are kept as in the source.
* Go maps that the source iterates or updates are modelled as association
  lists (`List (key × value)`) in iteration order, or, for the model index
  that is only updated via `append` and queried with the comma-ok idiom,
  as a function `String → Option (List ModelDetails)` (`none` = key absent).
* External collaborators (path resolution, file reading, JSON decoding,
  the request/response field adapters that live outside the two source
  files, the HTTP writer, and `rand.Intn`) are passed in as explicit
  function parameters (oracles).
* `rate.NewLimiter` values are modelled by a `RateLimiter` tag recording
  which bucket the source constructs; the pre-filled semaphore channel is
  modelled by its capacity.
-/

/-- Go: `strings.HasPrefix`, at the character-list level. -/
def hasPrefixChars : List Char → List Char → Bool
  | _, [] => true
  | [], _ :: _ => false
  | c :: cs, p :: ps => c = p && hasPrefixChars cs ps

/-- Go: `strings.HasPrefix line pre`. -/
def hasPrefixStr (s pre : String) : Bool :=
  hasPrefixChars s.data pre.data

/-- Go: `strings.TrimPrefix s pre` (drops `pre` when it is a prefix, else unchanged). -/
def trimLeading (s pre : String) : String :=
  if hasPrefixStr s pre then String.mk (s.data.drop pre.data.length) else s

/-! ## Data model (`pkg/config/config.go`) -/

/-- Go: `var defaultLimitTimeout int = 10` (never reassigned in the source). -/
def defaultLimitTimeout : Int := 10

/-- Go struct `Limit`. -/
structure Limit where
  qps : Int
  qpm : Int
  concurrency : Int
  timeout : Int
deriving DecidableEq, Inhabited, Repr

/-- The `*rate.Limiter` the source constructs, recorded by mode and argument:
`qpsBucket q` stands for `rate.NewLimiter(rate.Limit(q), int(q))`,
`qpmBucket q` for `rate.NewLimiter(rate.Every(time.Minute/q), q)`. -/
inductive RateLimiter where
  | qpsBucket (q : Int)
  | qpmBucket (q : Int)
deriving DecidableEq, Inhabited, Repr

/-- Go struct `ServiceModel`.  `limiter`, `timeout` and `concurrencyLimiter`
are the fields the builder fills in (`json:"-"` in the source); the
semaphore channel is recorded by its capacity. -/
structure ServiceModel where
  models : List String
  enabled : Bool
  credentials : List (String × String)
  serverURL : String
  modelMap : List (String × String)
  limit : Limit
  limiter : Option RateLimiter
  timeout : Int
  concurrencyLimiter : Option Int
deriving DecidableEq, Inhabited, Repr

/-- Go struct `Configuration` (`services` in map-iteration order). -/
structure Configuration where
  serverPort : String
  debug : Bool
  apiKey : String
  loadBalancing : String
  services : List (String × List ServiceModel)
deriving DecidableEq, Inhabited, Repr

/-- Go struct `ModelDetails` (the embedded `ServiceModel` made an explicit field). -/
structure ModelDetails where
  serviceName : String
  serviceModel : ServiceModel
deriving DecidableEq, Inhabited, Repr

/-- The global `ModelToService map[string][]ModelDetails`:
`none` models a key the comma-ok lookup reports as absent. -/
def ServiceMap : Type := String → Option (List ModelDetails)

/-- The empty Go map made by `make(map[string][]ModelDetails)`. -/
def emptyMap : ServiceMap := fun _ => none

/-- Go: `modelToService[modelName] = append(modelToService[modelName], detail)`
(indexing a missing key yields the empty slice). -/
def appendEntry (m : ServiceMap) (k : String) (d : ModelDetails) : ServiceMap :=
  fun k' => if k' = k then some (((m k).getD []) ++ [d]) else m k'

/-- The list stored under a key (empty when the key is absent). -/
def lookupList (m : ServiceMap) (k : String) : List ModelDetails :=
  (m k).getD []

/-! ## Registry build (`createModelToServiceMap`) -/

/-- Lines 62-85 of `config.go`, applied to the loop-variable copy of an
enabled entry before it is stored: build the governor
(`if QPS > 0 … else if QPM > 0 … else if Concurrency > 0 …`) and compute
the effective timeout (`model.Timeout = defaultLimitTimeout; if
model.Limit.Timeout > 0 { model.Timeout = model.Limit.Timeout }`). -/
def prepareModel (model : ServiceModel) : ServiceModel :=
  let limiter : Option RateLimiter :=
    if model.limit.qps > 0 then some (.qpsBucket model.limit.qps)
    else if model.limit.qpm > 0 then some (.qpmBucket model.limit.qpm)
    else none
  let semaphore : Option Int :=
    if model.limit.qps > 0 then none
    else if model.limit.qpm > 0 then none
    else if model.limit.concurrency > 0 then some model.limit.concurrency
    else none
  { model with
      limiter := limiter
      concurrencyLimiter := semaphore
      timeout := if model.limit.timeout > 0 then model.limit.timeout else defaultLimitTimeout }

/-- The body of the `for _, model := range serviceModels` loop: disabled
entries are skipped; an enabled entry is prepared and appended under every
name in its model list. -/
def entryStep (serviceName : String) (acc : ServiceMap) (model : ServiceModel) : ServiceMap :=
  if model.enabled then
    let prepared := prepareModel model
    prepared.models.foldl
      (fun a modelName => appendEntry a modelName ⟨serviceName, prepared⟩) acc
  else acc

/-- One iteration of `for serviceName, serviceModels := range config.Services`. -/
def processService (m : ServiceMap) (serviceName : String)
    (serviceModels : List ServiceModel) : ServiceMap :=
  serviceModels.foldl (entryStep serviceName) m

/-- Go: `createModelToServiceMap` (lines 57-100 of `config.go`). -/
def createModelToServiceMap (config : Configuration) : ServiceMap :=
  config.services.foldl (fun acc p => processService acc p.1 p.2) emptyMap

/-! ## Lookups -/

/-- The two error shapes `GetAllModelService` / `GetModelService` build with
`fmt.Errorf`: `notFound m` is "model m not found in the configuration",
`noEnabled m` is "no enabled model m found in the configuration". -/
inductive LookupError where
  | notFound (model : String)
  | noEnabled (model : String)
deriving DecidableEq, Repr

/-- Go: `GetAllModelService` (lines 161-166 of `config.go`). -/
def GetAllModelService (m : ServiceMap) (modelName : String) :
    Except LookupError (List ModelDetails) :=
  match m modelName with
  | some serviceDetails => .ok serviceDetails
  | none => .error (.notFound modelName)

/-- Go: `GetModelService` (lines 169-192 of `config.go`).  `rnd n` stands for
`rand.Intn(n)`; the source only evaluates it with `n > 0`, where its result
is `< n`, so the out-of-range `getD` default is unreachable under that
contract.  The `switch` on the strategy is the source's
`case "first" / case "random" / default` chain. -/
def GetModelService (m : ServiceMap) (strategy : String) (rnd : Nat → Nat)
    (modelName : String) : Except LookupError ModelDetails :=
  match m modelName with
  | some serviceDetails =>
    let enabledServices := serviceDetails.filter (fun sd => sd.serviceModel.enabled)
    if enabledServices.length = 0 then .error (.noEnabled modelName)
    else if strategy = "first" then .ok (enabledServices.getD 0 default)
    else if strategy = "random" then
      .ok (enabledServices.getD (rnd enabledServices.length) default)
    else .ok (enabledServices.getD (rnd enabledServices.length) default)
  | none => .error (.notFound modelName)

/-! ## Startup (`InitConfig`) -/

/-- The package-level variables `InitConfig` writes. -/
structure GlobalState where
  modelToService : ServiceMap
  loadBalancingStrategy : String
  serverPort : String
  apiKey : String
  debug : Bool

/-- Go: `InitConfig` (lines 103-158 of `config.go`).
`resolvePath` models `utils.ResolveRelativePathToAbsolute`, `readFile`
models `os.ReadFile`, and `unmarshal` models `json.Unmarshal` into a
zero-valued `Configuration`: it returns the (possibly partially filled)
struct together with the error, because the source only logs that error
(`if err != nil { log.Println(err) }`) and keeps the struct. -/
def InitConfig (resolvePath : String → Except String String)
    (readFile : String → Except String String)
    (unmarshal : String → Configuration × Option String)
    (prior : GlobalState) (configName : String) : Except String GlobalState :=
  let name := if configName = "" then "config.json" else configName
  match resolvePath name with
  | .error e => .error e
  | .ok configAbsolutePath =>
    match readFile configAbsolutePath with
    | .error e => .error e
    | .ok data =>
      let conf := (unmarshal data).1
      let strategy := if conf.loadBalancing = "" then "random" else conf.loadBalancing
      let apiKey := if conf.apiKey = "" then prior.apiKey else conf.apiKey
      let serverPort := if conf.serverPort = "" then ":9090" else conf.serverPort
      .ok { modelToService := createModelToServiceMap conf
            loadBalancingStrategy := strategy
            serverPort := serverPort
            apiKey := apiKey
            debug := conf.debug }

/-- Computable success test for an `Except` result. -/
def isOkB {ε α : Type} : Except ε α → Bool
  | .ok _ => true
  | .error _ => false

/-! ## Coze adapter (`pkg/handler/openai_cozecn_handler.go`) -/

/-- The nested `Message` of `cozecn.StreamResponse` as the handler reads it
(`response.Message.Type`); remaining payload fields are abstracted into
`content`. -/
structure StreamMessage where
  type : String
  content : String
deriving DecidableEq, Inhabited, Repr

/-- The nested error record of `cozecn.StreamResponse` as the handler reads
it (`response.ErrorInformation.Code`, `.Msg`). -/
structure ErrorInformation where
  code : Int
  msg : String
deriving DecidableEq, Inhabited, Repr

/-- `cozecn.StreamResponse`, restricted to the fields the handler touches:
the `event` discriminator, the nested message, and the error record. -/
structure StreamResponse where
  event : String
  message : StreamMessage
  errorInformation : ErrorInformation
deriving DecidableEq, Inhabited, Repr

/-- `openai.ChatCompletionStreamResponse` as the handler uses it: the
`Model` field it overwrites, plus the rest of the payload abstracted. -/
structure ChatCompletionStreamResponse where
  model : String
  payload : String
deriving DecidableEq, Inhabited, Repr

/-- Go: `oaiRespStream.Model = oaiReq.Model`. -/
def setModel (r : ChatCompletionStreamResponse) (m : String) : ChatCompletionStreamResponse :=
  { r with model := m }

/-- How one run of `handleCozecnStreamResponse` ends:
`finished` is `return nil` (a `done` frame, or the scanner draining with no
error); the other constructors are the `return fmt.Errorf/errors.New`
sites (`parseError` = "解析响应数据错误", `backendError` = "错误码 …",
`unknownEvent` = "message error:" + line, `readError` = "读取流式响应数据错误"). -/
inductive StreamOutcome where
  | finished
  | parseError (line : String)
  | backendError (code : Int) (msg : String)
  | unknownEvent (line : String)
  | readError (e : String)
deriving DecidableEq, Repr

/-- Go: `handleCozecnStreamResponse` (lines 106-160 of the handler).

The scanner's output is the line list plus `readErr` (the value of
`scanner.Err()` once the lines are exhausted).  `decode` models
`json.Unmarshal` into `cozecn.StreamResponse`; `convert` models
`adapter.CozecnReponseToOpenAIResponseStream`; `json.Marshal` of the chunk
struct cannot fail and is modelled at the object level.  `writeOk k` is the
success of the k-th `c.Writer.WriteString` call; the source logs a write
error and continues (`if err != nil { log.Println(err) }`), so the trace
records every attempted write together with its outcome and the loop goes
on regardless. -/
def handleCozecnStreamResponse (decode : String → Option StreamResponse)
    (convert : StreamResponse → ChatCompletionStreamResponse)
    (writeOk : Nat → Bool) (reqModel : String) (readErr : Option String) :
    List String → Nat → List (ChatCompletionStreamResponse × Bool) × StreamOutcome
  | [], _ =>
    ([], match readErr with
         | some e => .readError e
         | none => .finished)
  | line :: rest, k =>
    if hasPrefixStr line "data:" then
      let trimmed := trimLeading line "data:"
      match decode trimmed with
      | none => ([], .parseError trimmed)
      | some response =>
        if response.event = "message" then
          if response.message.type = "verbose" then
            handleCozecnStreamResponse decode convert writeOk reqModel readErr rest k
          else
            let chunk := setModel (convert response) reqModel
            let tail := handleCozecnStreamResponse decode convert writeOk reqModel readErr rest (k + 1)
            ((chunk, writeOk k) :: tail.1, tail.2)
        else if response.event = "done" then ([], .finished)
        else if response.event = "error" then
          ([], .backendError response.errorInformation.code response.errorInformation.msg)
        else ([], .unknownEvent trimmed)
    else
      handleCozecnStreamResponse decode convert writeOk reqModel readErr rest k

/-- `cozecn.Response` restricted to the fields the non-streaming handler
touches (`respJson.Code`, `respJson.Msg`); the payload the adapter maps is
abstracted. -/
structure CozeResponse where
  code : Int
  msg : String
  payload : String
deriving DecidableEq, Inhabited, Repr

/-- `openai.ChatCompletionResponse` as the handler uses it. -/
structure ChatCompletionResponse where
  model : String
  payload : String
deriving DecidableEq, Inhabited, Repr

/-- `openai.ChatCompletionRequest` restricted to the fields the handler
reads (`oaiReq.Stream`, `oaiReq.Model`). -/
structure ChatCompletionRequest where
  model : String
  stream : Bool
deriving DecidableEq, Inhabited, Repr

/-- The failure sites of the non-streaming path of `handleCozecnResponse`:
`readBodyError` = `io.ReadAll` failure, `decodeError` = "json解码错误",
`backendError` = "错误码: %d, 错误信息: %s". -/
inductive NonStreamError where
  | readBodyError (e : String)
  | decodeError (body : String)
  | backendError (code : Int) (msg : String)
deriving DecidableEq, Repr

/-- What a call to `handleCozecnResponse` does: either the streaming branch
ran (with its write trace and outcome), or `c.JSON(http.StatusOK, myresp)`
was reached, or an error was returned. -/
inductive HandlerResult where
  | streamed (trace : List (ChatCompletionStreamResponse × Bool)) (outcome : StreamOutcome)
  | jsonOk (resp : ChatCompletionResponse)
  | failed (e : NonStreamError)
deriving DecidableEq, Repr

/-- Go: `handleCozecnResponse` (lines 80-104 of the handler).
`readAll` models `io.ReadAll(resp.Body)`; `unmarshalResp` models
`json.Unmarshal` into `cozecn.Response` (`none` = decode error); `convert`
models `adapter.CozecnReponseToOpenAIResponse`; the streaming branch
delegates to `handleCozecnStreamResponse` with the body split into scanner
lines. -/
def handleCozecnResponse (readAll : Except String String)
    (unmarshalResp : String → Option CozeResponse)
    (convert : CozeResponse → ChatCompletionResponse)
    (decodeStream : String → Option StreamResponse)
    (convertStream : StreamResponse → ChatCompletionStreamResponse)
    (writeOk : Nat → Bool) (bodyLines : List String) (readErr : Option String)
    (oaiReq : ChatCompletionRequest) : HandlerResult :=
  if oaiReq.stream then
    let r := handleCozecnStreamResponse decodeStream convertStream writeOk
      oaiReq.model readErr bodyLines 0
    .streamed r.1 r.2
  else
    match readAll with
    | .error e => .failed (.readBodyError e)
    | .ok body =>
      match unmarshalResp body with
      | none => .failed (.decodeError body)
      | some respJson =>
        if respJson.code ≠ 0 then .failed (.backendError respJson.code respJson.msg)
        else .jsonOk { convert respJson with model := oaiReq.model }

/-! ## Registry lemmas -/

/-- Evaluating the map after one `append` store. -/
theorem lookupList_appendEntry (m : ServiceMap) (k : String) (d : ModelDetails) (k' : String) :
    lookupList (appendEntry m k d) k' =
      if k' = k then lookupList m k' ++ [d] else lookupList m k' := by
  unfold lookupList appendEntry
  by_cases h : k' = k <;> simp [h]

/-- Membership after the inner `for _, modelName := range model.Models` loop. -/
theorem mem_foldl_appendEntry (dd : ModelDetails) (M : String) (d : ModelDetails) :
    ∀ (names : List String) (m : ServiceMap),
      d ∈ lookupList (names.foldl (fun a n => appendEntry a n dd) m) M ↔
        d ∈ lookupList m M ∨ (d = dd ∧ M ∈ names) := by
  intro names
  induction names with
  | nil => intro m; simp
  | cons n ns ih =>
    intro m
    rw [List.foldl_cons, ih, lookupList_appendEntry]
    by_cases h : M = n
    · subst h
      rw [if_pos rfl]
      constructor
      · rintro (hm | hrest)
        · rcases List.mem_append.mp hm with hl | hd
          · exact .inl hl
          · exact .inr ⟨List.mem_singleton.mp hd, List.mem_cons_self _ _⟩
        · exact .inr ⟨hrest.1, List.mem_cons_of_mem _ hrest.2⟩
      · rintro (hl | ⟨hd, _⟩)
        · exact .inl (List.mem_append.mpr (.inl hl))
        · exact .inl (List.mem_append.mpr (.inr (List.mem_singleton.mpr hd)))
    · rw [if_neg h]
      constructor
      · rintro (hl | ⟨hd, hns⟩)
        · exact .inl hl
        · exact .inr ⟨hd, List.mem_cons_of_mem _ hns⟩
      · rintro (hl | ⟨hd, hns⟩)
        · exact .inl hl
        · rcases List.mem_cons.mp hns with hn | hn
          · exact absurd hn h
          · exact .inr ⟨hd, hn⟩

/-- `prepareModel` does not change the model list. -/
theorem prepareModel_models (model : ServiceModel) :
    (prepareModel model).models = model.models := rfl

/-- `prepareModel` does not change the declared limits. -/
theorem prepareModel_limit (model : ServiceModel) :
    (prepareModel model).limit = model.limit := rfl

/-- `prepareModel` does not change the enabled flag. -/
theorem prepareModel_enabled (model : ServiceModel) :
    (prepareModel model).enabled = model.enabled := rfl

/-- Membership after processing one entry of a service. -/
theorem mem_entryStep (svc : String) (M : String) (d : ModelDetails) (m : ServiceMap)
    (model : ServiceModel) :
    d ∈ lookupList (entryStep svc m model) M ↔
      d ∈ lookupList m M ∨
        (model.enabled = true ∧ M ∈ model.models ∧ d = ⟨svc, prepareModel model⟩) := by
  unfold entryStep
  by_cases h : model.enabled
  · rw [if_pos h, mem_foldl_appendEntry, prepareModel_models]
    simp only [h, true_and]
    tauto
  · rw [if_neg h]
    simp [h]

/-- Membership after processing one whole service. -/
theorem mem_processService (svc : String) (M : String) (d : ModelDetails) :
    ∀ (entries : List ServiceModel) (m : ServiceMap),
      d ∈ lookupList (processService m svc entries) M ↔
        d ∈ lookupList m M ∨
          ∃ e ∈ entries, e.enabled = true ∧ M ∈ e.models ∧ d = ⟨svc, prepareModel e⟩ := by
  intro entries
  induction entries with
  | nil => intro m; simp [processService]
  | cons e es ih =>
    intro m
    unfold processService at ih ⊢
    rw [List.foldl_cons, ih, mem_entryStep]
    simp only [List.mem_cons]
    constructor
    · rintro ((h | h) | ⟨x, hx, h⟩)
      · exact .inl h
      · exact .inr ⟨e, .inl rfl, h⟩
      · exact .inr ⟨x, .inr hx, h⟩
    · rintro (h | ⟨x, (rfl | hx), h⟩)
      · exact .inl (.inl h)
      · exact .inl (.inr h)
      · exact .inr ⟨x, hx, h⟩

/-- An entry of the built index is exactly an enabled, prepared entry of the
configuration declaring the model name. -/
theorem mem_createModelToServiceMap (config : Configuration) (M : String) (d : ModelDetails) :
    d ∈ lookupList (createModelToServiceMap config) M ↔
      ∃ p ∈ config.services, ∃ e ∈ p.2,
        e.enabled = true ∧ M ∈ e.models ∧ d = ⟨p.1, prepareModel e⟩ := by
  unfold createModelToServiceMap
  suffices h : ∀ (svcs : List (String × List ServiceModel)) (m : ServiceMap),
      d ∈ lookupList (svcs.foldl (fun acc p => processService acc p.1 p.2) m) M ↔
        d ∈ lookupList m M ∨
          ∃ p ∈ svcs, ∃ e ∈ p.2, e.enabled = true ∧ M ∈ e.models ∧ d = ⟨p.1, prepareModel e⟩ by
    rw [h config.services emptyMap]
    simp [lookupList, emptyMap]
  intro svcs
  induction svcs with
  | nil => intro m; simp
  | cons p ps ih =>
    intro m
    rw [List.foldl_cons, ih, mem_processService]
    simp only [List.mem_cons]
    constructor
    · rintro ((h | ⟨e, he, h⟩) | ⟨q, hq, h⟩)
      · exact .inl h
      · exact .inr ⟨p, .inl rfl, e, he, h⟩
      · exact .inr ⟨q, .inr hq, h⟩
    · rintro (h | ⟨q, (rfl | hq), h⟩)
      · exact .inl (.inl h)
      · exact .inl (.inr h)
      · exact .inr ⟨q, hq, h⟩

/-- The built map never stores an empty list under a present key (keys are
only created by appending a detail). -/
def NoEmptyVals (m : ServiceMap) : Prop := ∀ k, m k ≠ some []

/-- Generic `foldl` invariant preservation. -/
theorem foldl_preserves {α β : Type} (P : α → Prop) (f : α → β → α)
    (hf : ∀ a b, P a → P (f a b)) :
    ∀ (l : List β) (a : α), P a → P (l.foldl f a) := by
  intro l
  induction l with
  | nil => intro a h; exact h
  | cons b bs ih => intro a h; exact ih (f a b) (hf a b h)

theorem noEmptyVals_appendEntry (m : ServiceMap) (k : String) (d : ModelDetails)
    (h : NoEmptyVals m) : NoEmptyVals (appendEntry m k d) := by
  intro k'
  unfold appendEntry
  by_cases hk : k' = k <;> simp [hk]
  exact h k'

theorem noEmptyVals_createModelToServiceMap (config : Configuration) :
    NoEmptyVals (createModelToServiceMap config) := by
  unfold createModelToServiceMap
  refine foldl_preserves NoEmptyVals _ ?_ config.services emptyMap ?_
  · intro m p hm
    unfold processService
    refine foldl_preserves NoEmptyVals _ ?_ p.2 m hm
    intro m' e hm'
    unfold entryStep
    by_cases he : e.enabled
    · rw [if_pos he]
      refine foldl_preserves NoEmptyVals _ ?_ (prepareModel e).models m' hm'
      intro a n ha
      exact noEmptyVals_appendEntry a n _ ha
    · rw [if_neg he]; exact hm'
  · intro k; simp [emptyMap]

/-- Under the no-empty-values invariant, a key is absent exactly when its
stored list is empty. -/
theorem lookup_none_iff (m : ServiceMap) (h : NoEmptyVals m) (M : String) :
    m M = none ↔ lookupList m M = [] := by
  cases hm : m M with
  | none => simp [lookupList, hm]
  | some l =>
    simp only [lookupList, hm, Option.getD_some]
    constructor
    · intro hc; exact absurd hc (by simp)
    · intro hl; exact absurd (hl ▸ hm) (h M)

/-- A prepared (enabled) configuration entry that declares `M`, as it ends
up in the index. -/
def EnabledDetailFor (config : Configuration) (M : String) (d : ModelDetails) : Prop :=
  ∃ p ∈ config.services, ∃ e ∈ p.2,
    e.enabled = true ∧ M ∈ e.models ∧ d = ⟨p.1, prepareModel e⟩

/-- `M` is declared in the model list of at least one enabled entry. -/
def DeclaredEnabled (config : Configuration) (M : String) : Prop :=
  ∃ p ∈ config.services, ∃ e ∈ p.2, e.enabled = true ∧ M ∈ e.models

theorem declaredEnabled_iff_exists_detail (config : Configuration) (M : String) :
    DeclaredEnabled config M ↔ ∃ d, EnabledDetailFor config M d := by
  unfold DeclaredEnabled EnabledDetailFor
  constructor
  · rintro ⟨p, hp, e, he, hen, hM⟩
    exact ⟨⟨p.1, prepareModel e⟩, p, hp, e, he, hen, hM, rfl⟩
  · rintro ⟨d, p, hp, e, he, hen, hM, _⟩
    exact ⟨p, hp, e, he, hen, hM⟩

/-- An in-range `getD` is a member of the list. -/
theorem getD_mem_of_lt {α : Type} [Inhabited α] (l : List α) (i : Nat) (h : i < l.length) :
    l.getD i default ∈ l := by
  rw [List.getD_eq_getElem?_getD, List.getElem?_eq_getElem h]
  exact List.getElem_mem h

/-- C1 (corrected): only enabled entries are indexed, so `GetAllModelService M`
returns the list of all enabled entries declaring `M` (as prepared at build
time) and reports `NotFound` exactly when no enabled entry declares `M` —
a model declared only in disabled entries is `NotFound`. -/
theorem C1_getAllModelService_enabled_only (config : Configuration) (M : String) :
    (DeclaredEnabled config M →
      ∃ l, GetAllModelService (createModelToServiceMap config) M = .ok l ∧
        ∀ d, d ∈ l ↔ EnabledDetailFor config M d) ∧
    (¬ DeclaredEnabled config M →
      GetAllModelService (createModelToServiceMap config) M = .error (.notFound M)) := by
  have hwf := noEmptyVals_createModelToServiceMap config
  constructor
  · intro hdecl
    cases hm : createModelToServiceMap config M with
    | none =>
      exfalso
      have hempty := (lookup_none_iff _ hwf M).mp hm
      obtain ⟨d, hd⟩ := (declaredEnabled_iff_exists_detail config M).mp hdecl
      have hmem : d ∈ lookupList (createModelToServiceMap config) M :=
        (mem_createModelToServiceMap config M d).mpr hd
      rw [hempty] at hmem
      exact absurd hmem (List.not_mem_nil d)
    | some l =>
      refine ⟨l, by simp [GetAllModelService, hm], ?_⟩
      intro d
      unfold EnabledDetailFor
      have hmem := mem_createModelToServiceMap config M d
      unfold lookupList at hmem
      rw [hm] at hmem
      simpa using hmem
  · intro hnot
    cases hm : createModelToServiceMap config M with
    | none => simp [GetAllModelService, hm]
    | some l =>
      exfalso
      have hne : l ≠ [] := fun h => (hwf M) (h ▸ hm)
      obtain ⟨d, hd⟩ := List.exists_mem_of_ne_nil l hne
      have hmem : d ∈ lookupList (createModelToServiceMap config) M := by
        simp [lookupList, hm, hd]
      have hfor := (mem_createModelToServiceMap config M d).mp hmem
      exact hnot ((declaredEnabled_iff_exists_detail config M).mpr ⟨d, hfor⟩)

/-! ## Concrete configurations for witnesses and counterexamples -/

/-- A `Limit` with no governance configured (the Go zero value). -/
def zeroLimit : Limit := ⟨0, 0, 0, 0⟩

/-- A disabled entry declaring model name "m". -/
def disabledEntry : ServiceModel :=
  { models := ["m"], enabled := false, credentials := [], serverURL := "",
    modelMap := [], limit := zeroLimit, limiter := none, timeout := 0,
    concurrencyLimiter := none }

/-- A configuration whose only entry is disabled but declares "m". -/
def disabledOnlyConfig : Configuration :=
  { serverPort := "", debug := false, apiKey := "", loadBalancing := "",
    services := [("svc", [disabledEntry])] }

/-- The same entry, enabled. -/
def enabledEntry : ServiceModel := { disabledEntry with enabled := true }

/-- A configuration with one enabled entry declaring "m". -/
def enabledConfig : Configuration :=
  { disabledOnlyConfig with services := [("svc", [enabledEntry])] }

/-- C1 counterexample: "m" is declared in an entry of `disabledOnlyConfig`
(so the claim promises `LookupAll("m")` succeeds), yet `GetAllModelService`
reports `NotFound` because the builder skipped the disabled entry. -/
theorem C1_counterexample :
    (∃ p ∈ disabledOnlyConfig.services, ∃ e ∈ p.2, "m" ∈ e.models) ∧
    GetAllModelService (createModelToServiceMap disabledOnlyConfig) "m"
      = .error (.notFound "m") := by
  constructor
  · exact ⟨("svc", [disabledEntry]), by simp [disabledOnlyConfig], disabledEntry,
      by simp, by simp [disabledEntry]⟩
  · rfl

/-- C1 witness: the amended theorem applied to `enabledConfig` ("m" is
declared in an enabled entry, so the lookup succeeds) and to a name that
no enabled entry declares (so the lookup is `NotFound`). -/
theorem C1_witness :
    isOkB (GetAllModelService (createModelToServiceMap enabledConfig) "m") = true ∧
    GetAllModelService (createModelToServiceMap enabledConfig) "zzz"
      = .error (.notFound "zzz") := by
  constructor
  · obtain ⟨l, hok, _⟩ := (C1_getAllModelService_enabled_only enabledConfig "m").1
      (by unfold DeclaredEnabled; decide)
    rw [hok]; rfl
  · exact (C1_getAllModelService_enabled_only enabledConfig "zzz").2
      (by unfold DeclaredEnabled; decide)

/-- C2: `GetModelService` reports `NotFound` when the model name is absent
from the index, `NoEnabledService` when it is present but every entry under
it is disabled, and otherwise returns an entry that is enabled — never a
disabled one (for any `rand.Intn` oracle respecting `rnd n < n`). -/
theorem C2_getModelService_contract (m : ServiceMap) (strategy : String)
    (rnd : Nat → Nat) (M : String) (hrnd : ∀ n, 0 < n → rnd n < n) :
    (m M = none → GetModelService m strategy rnd M = .error (.notFound M)) ∧
    (∀ l, m M = some l → (∀ d ∈ l, d.serviceModel.enabled = false) →
      GetModelService m strategy rnd M = .error (.noEnabled M)) ∧
    (∀ d, GetModelService m strategy rnd M = .ok d →
      d.serviceModel.enabled = true) := by
  refine ⟨?_, ?_, ?_⟩
  · intro hm
    simp [GetModelService, hm]
  · intro l hm hall
    have hfil : l.filter (fun sd => sd.serviceModel.enabled) = [] := by
      rw [List.filter_eq_nil_iff]
      intro a ha
      simp [hall a ha]
    simp [GetModelService, hm, hfil]
  · intro d hd
    cases hm : m M with
    | none => simp [GetModelService, hm] at hd
    | some l =>
      simp only [GetModelService, hm] at hd
      by_cases hlen : (l.filter (fun sd => sd.serviceModel.enabled)).length = 0
      · rw [if_pos hlen] at hd
        exact absurd hd (by simp)
      · rw [if_neg hlen] at hd
        have hpos : 0 < (l.filter (fun sd => sd.serviceModel.enabled)).length :=
          Nat.pos_of_ne_zero hlen
        have hmem : d ∈ l.filter (fun sd => sd.serviceModel.enabled) := by
          by_cases hs1 : strategy = "first"
          · rw [if_pos hs1, Except.ok.injEq] at hd
            rw [← hd]
            exact getD_mem_of_lt _ 0 hpos
          · rw [if_neg hs1] at hd
            have hlt := hrnd _ hpos
            by_cases hs2 : strategy = "random"
            · rw [if_pos hs2, Except.ok.injEq] at hd
              rw [← hd]
              exact getD_mem_of_lt _ _ hlt
            · rw [if_neg hs2, Except.ok.injEq] at hd
              rw [← hd]
              exact getD_mem_of_lt _ _ hlt
        simpa using (List.mem_filter.mp hmem).2

/-- An index state with one all-disabled key, one enabled key, and all other
keys absent (the all-disabled shape is what the contract's middle case is
about). -/
def mixedMap : ServiceMap := fun k =>
  if k = "dis" then some [⟨"svc", disabledEntry⟩]
  else if k = "en" then some [⟨"svc", enabledEntry⟩]
  else none

/-- C2 witness: the contract applied at `mixedMap` for an absent name, an
all-disabled name, and an enabled name. -/
theorem C2_witness :
    GetModelService mixedMap "random" (fun _ => 0) "absent" = .error (.notFound "absent") ∧
    GetModelService mixedMap "random" (fun _ => 0) "dis" = .error (.noEnabled "dis") ∧
    (⟨"svc", enabledEntry⟩ : ModelDetails).serviceModel.enabled = true := by
  have h1 := C2_getModelService_contract mixedMap "random" (fun _ => 0) "absent"
    (fun n hn => hn)
  have h2 := C2_getModelService_contract mixedMap "random" (fun _ => 0) "dis"
    (fun n hn => hn)
  have h3 := C2_getModelService_contract mixedMap "random" (fun _ => 0) "en"
    (fun n hn => hn)
  refine ⟨h1.1 (by decide), h2.2.1 [⟨"svc", disabledEntry⟩] (by decide) (by decide),
    h3.2.2 ⟨"svc", enabledEntry⟩ rfl⟩

/-- Governor and timeout fields of a prepared entry, by case on the limits. -/
theorem prepareModel_fields (model : ServiceModel) :
    ((model.limit.qps > 0 →
        (prepareModel model).limiter = some (.qpsBucket model.limit.qps) ∧
        (prepareModel model).concurrencyLimiter = none) ∧
      (¬ model.limit.qps > 0 → model.limit.qpm > 0 →
        (prepareModel model).limiter = some (.qpmBucket model.limit.qpm) ∧
        (prepareModel model).concurrencyLimiter = none) ∧
      (¬ model.limit.qps > 0 → ¬ model.limit.qpm > 0 → model.limit.concurrency > 0 →
        (prepareModel model).limiter = none ∧
        (prepareModel model).concurrencyLimiter = some model.limit.concurrency) ∧
      (¬ model.limit.qps > 0 → ¬ model.limit.qpm > 0 → ¬ model.limit.concurrency > 0 →
        (prepareModel model).limiter = none ∧
        (prepareModel model).concurrencyLimiter = none)) ∧
    ((model.limit.timeout > 0 → (prepareModel model).timeout = model.limit.timeout) ∧
      (¬ model.limit.timeout > 0 → (prepareModel model).timeout = defaultLimitTimeout)) := by
  by_cases h1 : model.limit.qps > 0 <;> by_cases h2 : model.limit.qpm > 0 <;>
    by_cases h3 : model.limit.concurrency > 0 <;> by_cases h4 : model.limit.timeout > 0 <;>
    simp [prepareModel, h1, h2, h3, h4]

/-- C5: every entry stored in the index at construction has exactly one
governor mode, chosen by the priority qps > qpm > concurrency > none:
a QPS bucket when `qps > 0`, else a QPM bucket when `qpm > 0`, else a
permit pool of size `concurrency` when `concurrency > 0`, else neither;
a rate limiter and a permit pool are never both present. -/
theorem C5_governor_priority (config : Configuration) (M : String) (d : ModelDetails)
    (hd : d ∈ lookupList (createModelToServiceMap config) M) :
    (d.serviceModel.limit.qps > 0 →
      d.serviceModel.limiter = some (.qpsBucket d.serviceModel.limit.qps) ∧
      d.serviceModel.concurrencyLimiter = none) ∧
    (¬ d.serviceModel.limit.qps > 0 → d.serviceModel.limit.qpm > 0 →
      d.serviceModel.limiter = some (.qpmBucket d.serviceModel.limit.qpm) ∧
      d.serviceModel.concurrencyLimiter = none) ∧
    (¬ d.serviceModel.limit.qps > 0 → ¬ d.serviceModel.limit.qpm > 0 →
      d.serviceModel.limit.concurrency > 0 →
      d.serviceModel.limiter = none ∧
      d.serviceModel.concurrencyLimiter = some d.serviceModel.limit.concurrency) ∧
    (¬ d.serviceModel.limit.qps > 0 → ¬ d.serviceModel.limit.qpm > 0 →
      ¬ d.serviceModel.limit.concurrency > 0 →
      d.serviceModel.limiter = none ∧ d.serviceModel.concurrencyLimiter = none) ∧
    ¬ (d.serviceModel.limiter.isSome = true ∧
       d.serviceModel.concurrencyLimiter.isSome = true) := by
  obtain ⟨p, _, e, _, _, _, hdEq⟩ := (mem_createModelToServiceMap config M d).mp hd
  subst hdEq
  have hlim : (prepareModel e).limit = e.limit := prepareModel_limit e
  have hf := (prepareModel_fields e).1
  simp only [ModelDetails.serviceModel] at *
  rw [hlim]
  refine ⟨hf.1, hf.2.1, hf.2.2.1, hf.2.2.2, ?_⟩
  rintro ⟨hsome1, hsome2⟩
  by_cases h1 : e.limit.qps > 0
  · rcases hf.1 h1 with ⟨_, hnone⟩
    rw [hnone] at hsome2
    simp at hsome2
  · by_cases h2 : e.limit.qpm > 0
    · rcases hf.2.1 h1 h2 with ⟨_, hnone⟩
      rw [hnone] at hsome2
      simp at hsome2
    · by_cases h3 : e.limit.concurrency > 0
      · rcases hf.2.2.1 h1 h2 h3 with ⟨hnone, _⟩
        rw [hnone] at hsome1
        simp at hsome1
      · rcases hf.2.2.2 h1 h2 h3 with ⟨hnone, _⟩
        rw [hnone] at hsome1
        simp at hsome1

/-- C9: every enabled entry processed at registry build time carries
`effectiveTimeout = limit.timeout` when that is positive, else the fixed
default 10. -/
theorem C9_effective_timeout (config : Configuration) (M : String) (d : ModelDetails)
    (hd : d ∈ lookupList (createModelToServiceMap config) M) :
    (d.serviceModel.limit.timeout > 0 →
      d.serviceModel.timeout = d.serviceModel.limit.timeout) ∧
    (¬ d.serviceModel.limit.timeout > 0 → d.serviceModel.timeout = 10) := by
  obtain ⟨p, _, e, _, _, _, hdEq⟩ := (mem_createModelToServiceMap config M d).mp hd
  subst hdEq
  have hlim : (prepareModel e).limit = e.limit := prepareModel_limit e
  have hf := (prepareModel_fields e).2
  simp only [ModelDetails.serviceModel] at *
  rw [hlim]
  exact ⟨hf.1, fun h => (hf.2 h).trans rfl⟩

/-- An enabled entry with `qps = 5` and `timeout = 7` declaring "q". -/
def qpsEntry : ServiceModel :=
  { enabledEntry with models := ["q"], limit := ⟨5, 0, 0, 7⟩ }

/-- A configuration holding only `qpsEntry`. -/
def qpsConfig : Configuration :=
  { disabledOnlyConfig with services := [("svc", [qpsEntry])] }

/-- C5 witness: the governor-priority theorem applied to the entry the
build places under "q" in `qpsConfig` (qps = 5, so a QPS bucket and no
permit pool). -/
theorem C5_witness :
    (⟨"svc", prepareModel qpsEntry⟩ : ModelDetails).serviceModel.limiter
        = some (.qpsBucket 5) ∧
    (⟨"svc", prepareModel qpsEntry⟩ : ModelDetails).serviceModel.concurrencyLimiter
        = none := by
  have hd : (⟨"svc", prepareModel qpsEntry⟩ : ModelDetails)
      ∈ lookupList (createModelToServiceMap qpsConfig) "q" := by decide
  exact (C5_governor_priority qpsConfig "q" ⟨"svc", prepareModel qpsEntry⟩ hd).1 (by decide)

/-- C9 witness: the effective-timeout theorem applied to an entry with
`limit.timeout = 7` (kept) and one with `limit.timeout = 0` (default 10). -/
theorem C9_witness :
    (⟨"svc", prepareModel qpsEntry⟩ : ModelDetails).serviceModel.timeout = 7 ∧
    (⟨"svc", prepareModel enabledEntry⟩ : ModelDetails).serviceModel.timeout = 10 := by
  have hd1 : (⟨"svc", prepareModel qpsEntry⟩ : ModelDetails)
      ∈ lookupList (createModelToServiceMap qpsConfig) "q" := by decide
  have hd2 : (⟨"svc", prepareModel enabledEntry⟩ : ModelDetails)
      ∈ lookupList (createModelToServiceMap enabledConfig) "m" := by decide
  exact ⟨(C9_effective_timeout qpsConfig "q" _ hd1).1 (by decide),
    (C9_effective_timeout enabledConfig "m" _ hd2).2 (by decide)⟩

/-- C4 (corrected): `InitConfig` fails exactly when the path cannot be
resolved or the document cannot be read; a document that reads fine but is
malformed JSON is only logged — `InitConfig` proceeds with whatever struct
`json.Unmarshal` left behind and reports success. -/
theorem C4_initConfig_failures (resolvePath readFile : String → Except String String)
    (unmarshal : String → Configuration × Option String)
    (prior : GlobalState) (configName : String) :
    (∀ e, resolvePath (if configName = "" then "config.json" else configName) = .error e →
      InitConfig resolvePath readFile unmarshal prior configName = .error e) ∧
    (∀ abs e,
      resolvePath (if configName = "" then "config.json" else configName) = .ok abs →
      readFile abs = .error e →
      InitConfig resolvePath readFile unmarshal prior configName = .error e) ∧
    (∀ abs data,
      resolvePath (if configName = "" then "config.json" else configName) = .ok abs →
      readFile abs = .ok data →
      isOkB (InitConfig resolvePath readFile unmarshal prior configName) = true) := by
  refine ⟨?_, ?_, ?_⟩
  · intro e he
    simp [InitConfig, he]
  · intro abs e hres hread
    simp [InitConfig, hres, hread]
  · intro abs data hres hread
    simp [InitConfig, hres, hread, isOkB]

/-- Path resolution that succeeds with the name unchanged. -/
def idResolve : String → Except String String := fun s => .ok s

/-- A read that succeeds with a body that is not valid JSON. -/
def constReadFile : String → Except String String := fun _ => .ok "not json"

/-- A read that fails (missing file). -/
def errReadFile : String → Except String String := fun _ => .error "no such file"

/-- The Go zero value of `Configuration` (what `json.Unmarshal` leaves on a
fully malformed document). -/
def zeroConf : Configuration :=
  { serverPort := "", debug := false, apiKey := "", loadBalancing := "", services := [] }

/-- An unmarshal oracle that always fails, leaving the zero struct. -/
def failingUnmarshal : String → Configuration × Option String :=
  fun _ => (zeroConf, some "invalid character")

/-- The package-level variables before `InitConfig` runs (Go zero values). -/
def priorGlobals : GlobalState :=
  { modelToService := emptyMap, loadBalancingStrategy := "", serverPort := "",
    apiKey := "", debug := false }

/-- C4 counterexample: the document is readable but malformed
(`failingUnmarshal` reports a JSON error), yet `InitConfig` returns
success — the decode error is absorbed, not fatal. -/
theorem C4_counterexample :
    (failingUnmarshal "not json").2 = some "invalid character" ∧
    isOkB (InitConfig idResolve constReadFile failingUnmarshal priorGlobals "config.json")
      = true := ⟨rfl, rfl⟩

/-- C4 witness: the amended theorem applied with an unreadable document
(fatal, error propagated) and with a readable one (success). -/
theorem C4_witness :
    InitConfig idResolve errReadFile failingUnmarshal priorGlobals "config.json"
      = .error "no such file" ∧
    isOkB (InitConfig idResolve constReadFile failingUnmarshal priorGlobals "cfg.json")
      = true := by
  refine ⟨?_, ?_⟩
  · exact (C4_initConfig_failures idResolve errReadFile failingUnmarshal priorGlobals
      "config.json").2.1 "config.json" "no such file" rfl rfl
  · exact (C4_initConfig_failures idResolve constReadFile failingUnmarshal priorGlobals
      "cfg.json").2.2 "cfg.json" "not json" rfl rfl

/-- C8: an unset load-balancing name is normalized to "random" at load
time; any strategy other than "first" selects exactly as "random" does;
and under such a strategy every enabled entry of a model is returned for
some `rand.Intn` outcome — not a silent fallback to the first entry. -/
theorem C8_default_strategy_random :
    (∀ (resolvePath readFile : String → Except String String)
        (unmarshal : String → Configuration × Option String)
        (prior : GlobalState) (configName abs data : String) (st : GlobalState),
      resolvePath (if configName = "" then "config.json" else configName) = .ok abs →
      readFile abs = .ok data →
      (unmarshal data).1.loadBalancing = "" →
      InitConfig resolvePath readFile unmarshal prior configName = .ok st →
      st.loadBalancingStrategy = "random") ∧
    (∀ (m : ServiceMap) (s : String) (rnd : Nat → Nat) (M : String), s ≠ "first" →
      GetModelService m s rnd M = GetModelService m "random" rnd M) ∧
    (∀ (m : ServiceMap) (s : String) (M : String) (l : List ModelDetails), s ≠ "first" →
      m M = some l →
      ∀ d ∈ l.filter (fun sd => sd.serviceModel.enabled), ∃ rnd : Nat → Nat,
        (∀ n, 0 < n → rnd n < n) ∧ GetModelService m s rnd M = .ok d) := by
  refine ⟨?_, ?_, ?_⟩
  · intro rp rf um prior cn abs data st hres hread hlb hinit
    simp only [InitConfig, hres, hread, Except.ok.injEq] at hinit
    rw [← hinit]
    simp [hlb]
  · intro m s rnd M hs
    cases hm : m M with
    | none => simp [GetModelService, hm]
    | some l =>
      simp only [GetModelService, hm]
      by_cases hlen : (l.filter (fun sd => sd.serviceModel.enabled)).length = 0
      · rw [if_pos hlen, if_pos hlen]
      · rw [if_neg hlen, if_neg hlen, if_neg hs]
        by_cases hs2 : s = "random"
        · rw [if_pos hs2]
          simp
        · rw [if_neg hs2]
          simp
  · intro m s M l hs hm d hd
    obtain ⟨i, hi, hget⟩ := List.getElem_of_mem hd
    refine ⟨fun n => if i < n then i else 0, ?_, ?_⟩
    · intro n hn
      by_cases hin : i < n
      · simp [hin]
      · simpa [hin] using hn
    · have hlen : (l.filter (fun sd => sd.serviceModel.enabled)).length ≠ 0 := by
        intro h0
        rw [List.length_eq_zero] at h0
        rw [h0] at hd
        exact absurd hd (List.not_mem_nil d)
      have key : (l.filter (fun sd => sd.serviceModel.enabled)).getD
          (if i < (l.filter (fun sd => sd.serviceModel.enabled)).length then i else 0)
          default = d := by
        rw [if_pos hi, List.getD_eq_getElem?_getD, List.getElem?_eq_getElem hi]
        simpa using hget
      simp only [GetModelService, hm]
      rw [if_neg hlen, if_neg hs]
      by_cases hs2 : s = "random"
      · rw [if_pos hs2]
        exact congrArg Except.ok key
      · rw [if_neg hs2]
        exact congrArg Except.ok key

/-- The global state `InitConfig` computes for the malformed-document run
(zero configuration, defaults applied). -/
def stGlobals : GlobalState :=
  { modelToService := createModelToServiceMap zeroConf
    loadBalancingStrategy := "random"
    serverPort := ":9090"
    apiKey := ""
    debug := false }

/-- C8 witness: the theorem applied concretely — an unset strategy yields
"random" after `InitConfig`, and an unrecognized name ("weighted") selects
exactly as "random". -/
theorem C8_witness :
    stGlobals.loadBalancingStrategy = "random" ∧
    GetModelService mixedMap "weighted" (fun _ => 0) "en"
      = GetModelService mixedMap "random" (fun _ => 0) "en" := by
  refine ⟨?_, ?_⟩
  · exact C8_default_strategy_random.1 idResolve constReadFile failingUnmarshal
      priorGlobals "config.json" "config.json" "not json" stGlobals rfl rfl rfl rfl
  · exact C8_default_strategy_random.2.1 mixedMap "weighted" (fun _ => 0) "en"
      (by decide)

/-! ## Streaming translator: spec-side reference (C3) -/

/-- Modelled from the spec (§4.4 state machine), statement side: the
canonical chunks a stream of decoded frames should produce — one chunk per
non-verbose `message` frame, in order, nothing at or after the first
non-`message` frame. -/
def specChunks (convert : StreamResponse → ChatCompletionStreamResponse)
    (reqModel : String) : List StreamResponse → List ChatCompletionStreamResponse
  | [] => []
  | e :: rest =>
    if e.event = "message" then
      if e.message.type = "verbose" then specChunks convert reqModel rest
      else setModel (convert e) reqModel :: specChunks convert reqModel rest
    else []

/-- Modelled from the spec (§4.4 state machine), statement side: how the
stream should end — clean at `done` (or at end of input with no read
error), `BackendError` with the frame's code and message at `error`,
`ProtocolError` at an unknown kind. -/
def specOutcome (readErr : Option String) : List StreamResponse → StreamOutcome
  | [] =>
    match readErr with
    | some e => .readError e
    | none => .finished
  | e :: rest =>
    if e.event = "message" then specOutcome readErr rest
    else if e.event = "done" then .finished
    else if e.event = "error" then
      .backendError e.errorInformation.code e.errorInformation.msg
    else .unknownEvent e.event

/-- The scanner lines correspond one-for-one to decoded frames: each line
carries the "data:" marker and its trimmed payload decodes to the frame. -/
def LinesDecodeTo (decode : String → Option StreamResponse) :
    List String → List StreamResponse → Prop
  | [], [] => True
  | line :: lines, e :: es =>
    hasPrefixStr line "data:" = true ∧
    decode (trimLeading line "data:") = some e ∧
    LinesDecodeTo decode lines es
  | _ :: _, [] => False
  | [], _ :: _ => False

/-- The translator run over lines that decode to a known-event frame list
produces exactly the spec chunks and the spec outcome (for any write
results and any starting write index). -/
theorem handleStream_refines_spec (decode : String → Option StreamResponse)
    (convert : StreamResponse → ChatCompletionStreamResponse)
    (writeOk : Nat → Bool) (reqModel : String) (readErr : Option String) :
    ∀ (lines : List String) (es : List StreamResponse) (k : Nat),
      LinesDecodeTo decode lines es →
      (∀ e ∈ es, e.event = "message" ∨ e.event = "done" ∨ e.event = "error") →
      (handleCozecnStreamResponse decode convert writeOk reqModel readErr lines k).1.map
          Prod.fst = specChunks convert reqModel es ∧
      (handleCozecnStreamResponse decode convert writeOk reqModel readErr lines k).2
          = specOutcome readErr es := by
  intro lines
  induction lines with
  | nil =>
    intro es k hdec _
    cases es with
    | nil => simp [handleCozecnStreamResponse, specChunks, specOutcome]
    | cons e es' => exact absurd hdec (by simp [LinesDecodeTo])
  | cons line rest ih =>
    intro es k hdec hknown
    cases es with
    | nil => exact absurd hdec (by simp [LinesDecodeTo])
    | cons e es' =>
      obtain ⟨hpre, hdc, htail⟩ := hdec
      have hknown' : ∀ x ∈ es', x.event = "message" ∨ x.event = "done" ∨ x.event = "error" :=
        fun x hx => hknown x (List.mem_cons_of_mem _ hx)
      have he := hknown e (List.mem_cons_self _ _)
      rcases he with hev | hev | hev
      · by_cases hv : e.message.type = "verbose"
        · have := ih es' k htail hknown'
          simp only [handleCozecnStreamResponse, hpre, if_pos rfl, hdc, hev, hv,
            specChunks, specOutcome, if_true]
          simpa using this
        · have := ih es' (k + 1) htail hknown'
          simp only [handleCozecnStreamResponse, hpre, if_pos rfl, hdc, hev, hv,
            specChunks, specOutcome, if_true, if_false, List.map_cons]
          simp only [List.map] at this ⊢
          constructor
          · rw [this.1]
          · rw [this.2]
      · simp [handleCozecnStreamResponse, hpre, hdc, hev, specChunks, specOutcome]
      · simp [handleCozecnStreamResponse, hpre, hdc, hev, specChunks, specOutcome]

/-- C3: over any stream whose lines each carry the "data:" marker and
decode to a known frame, the translator suppresses verbose message frames,
emits exactly one canonical chunk per non-verbose message frame in order,
stops cleanly at a `done` frame emitting nothing further, and on an
`error` frame fails with the backend error carrying that frame's code and
message — i.e. it produces exactly the spec-side chunks and outcome. -/
theorem C3_stream_translator (decode : String → Option StreamResponse)
    (convert : StreamResponse → ChatCompletionStreamResponse)
    (writeOk : Nat → Bool) (reqModel : String) (readErr : Option String)
    (lines : List String) (es : List StreamResponse)
    (hdec : LinesDecodeTo decode lines es)
    (hknown : ∀ e ∈ es, e.event = "message" ∨ e.event = "done" ∨ e.event = "error") :
    (handleCozecnStreamResponse decode convert writeOk reqModel readErr lines 0).1.map
        Prod.fst = specChunks convert reqModel es ∧
    (handleCozecnStreamResponse decode convert writeOk reqModel readErr lines 0).2
        = specOutcome readErr es :=
  handleStream_refines_spec decode convert writeOk reqModel readErr lines es 0 hdec hknown

/-- Concrete frames for the stream witnesses. -/
def msgA : StreamResponse := ⟨"message", ⟨"answer", "A"⟩, ⟨0, ""⟩⟩

def msgV : StreamResponse := ⟨"message", ⟨"verbose", "V"⟩, ⟨0, ""⟩⟩

def msgB : StreamResponse := ⟨"message", ⟨"answer", "B"⟩, ⟨0, ""⟩⟩

def evtDone : StreamResponse := ⟨"done", ⟨"", ""⟩, ⟨0, ""⟩⟩

def evtErr : StreamResponse := ⟨"error", ⟨"", ""⟩, ⟨7, "x"⟩⟩

/-- A concrete decode oracle for the stream witnesses. -/
def decodeTable : String → Option StreamResponse := fun s =>
  if s = "A" then some msgA
  else if s = "V" then some msgV
  else if s = "B" then some msgB
  else if s = "D" then some evtDone
  else if s = "E" then some evtErr
  else none

/-- A concrete adapter for the stream witnesses (model left blank, as the
handler overwrites it). -/
def convertStream0 : StreamResponse → ChatCompletionStreamResponse :=
  fun e => ⟨"", e.message.content⟩

/-- C3 witness: the frame sequence [message(A), message(verbose),
message(B), done, message(A)] emits exactly the two chunks A then B and
finishes cleanly (nothing emitted after `done`); [message(A), error(7,"x")]
emits A's chunk then fails with the backend error 7/"x". -/
theorem C3_witness :
    ((handleCozecnStreamResponse decodeTable convertStream0 (fun _ => true) "gpt" none
        ["data:A", "data:V", "data:B", "data:D", "data:A"] 0).1.map Prod.fst
      = [⟨"gpt", "A"⟩, ⟨"gpt", "B"⟩] ∧
     (handleCozecnStreamResponse decodeTable convertStream0 (fun _ => true) "gpt" none
        ["data:A", "data:V", "data:B", "data:D", "data:A"] 0).2 = .finished) ∧
    ((handleCozecnStreamResponse decodeTable convertStream0 (fun _ => true) "gpt" none
        ["data:A", "data:E"] 0).1.map Prod.fst = [⟨"gpt", "A"⟩] ∧
     (handleCozecnStreamResponse decodeTable convertStream0 (fun _ => true) "gpt" none
        ["data:A", "data:E"] 0).2 = .backendError 7 "x") := by
  constructor
  · have h := C3_stream_translator decodeTable convertStream0 (fun _ => true) "gpt" none
      ["data:A", "data:V", "data:B", "data:D", "data:A"]
      [msgA, msgV, msgB, evtDone, msgA]
      ⟨rfl, rfl, rfl, rfl, rfl, rfl, rfl, rfl, rfl, rfl, trivial⟩ (by decide)
    exact ⟨h.1.trans (by decide), h.2.trans (by decide)⟩
  · have h := C3_stream_translator decodeTable convertStream0 (fun _ => true) "gpt" none
      ["data:A", "data:E"] [msgA, evtErr]
      ⟨rfl, rfl, rfl, rfl, trivial⟩ (by decide)
    exact ⟨h.1.trans (by decide), h.2.trans (by decide)⟩

/-- C7 counterexample: with a writer whose first write fails (`false` flag
on chunk A), the translator still emits the second chunk B — the stream is
not aborted after the failed write. -/
theorem C7_counterexample :
    handleCozecnStreamResponse decodeTable convertStream0 (fun k => k != 0) "gpt" none
        ["data:A", "data:B", "data:D"] 0
      = ([(⟨"gpt", "A"⟩, false), (⟨"gpt", "B"⟩, true)], .finished) := by
  decide

/-- C7 (corrected): a failed chunk write is logged and ignored by the
translator — the emitted chunk sequence and the final outcome are the same
for every write-success oracle (and write counter), so processing continues
with subsequent frames instead of aborting. -/
theorem C7_write_failure_ignored (decode : String → Option StreamResponse)
    (convert : StreamResponse → ChatCompletionStreamResponse)
    (w w' : Nat → Bool) (reqModel : String) (readErr : Option String) :
    ∀ (lines : List String) (k k' : Nat),
      (handleCozecnStreamResponse decode convert w reqModel readErr lines k).1.map
          Prod.fst
        = (handleCozecnStreamResponse decode convert w' reqModel readErr lines k').1.map
          Prod.fst ∧
      (handleCozecnStreamResponse decode convert w reqModel readErr lines k).2
        = (handleCozecnStreamResponse decode convert w' reqModel readErr lines k').2 := by
  intro lines
  induction lines with
  | nil =>
    intro k k'
    simp [handleCozecnStreamResponse]
  | cons line rest ih =>
    intro k k'
    by_cases hpre : hasPrefixStr line "data:" = true
    · cases hdc : decode (trimLeading line "data:") with
      | none => simp [handleCozecnStreamResponse, hpre, hdc]
      | some response =>
        by_cases hev : response.event = "message"
        · by_cases hv : response.message.type = "verbose"
          · simp only [handleCozecnStreamResponse, hpre, hdc, hev, hv, if_true]
            exact ih k k'
          · have h := ih (k + 1) (k' + 1)
            simp only [handleCozecnStreamResponse, hpre, hdc, hev, hv, if_true,
              if_false, List.map_cons]
            constructor
            · simp only [List.map] at h ⊢
              rw [h.1]
            · exact h.2
        · simp only [handleCozecnStreamResponse, hpre, hdc, hev]
          by_cases hd2 : response.event = "done"
          · simp [hd2]
          · by_cases he2 : response.event = "error"
            · simp [hd2, he2]
            · simp [hd2, he2, hev]
    · simp only [handleCozecnStreamResponse, hpre]
      have hfalse : hasPrefixStr line "data:" = false := by
        cases hb : hasPrefixStr line "data:"
        · rfl
        · exact absurd hb hpre
      simp only [hfalse, Bool.false_eq_true, if_false]
      exact ih k k'

/-- C10: a scanner line that does not begin with "data:" (including a blank
keep-alive line) is silently skipped: no chunk is emitted, no error is
raised, and processing continues with the remaining lines unchanged. -/
theorem C10_non_data_lines_skipped (decode : String → Option StreamResponse)
    (convert : StreamResponse → ChatCompletionStreamResponse)
    (writeOk : Nat → Bool) (reqModel : String) (readErr : Option String)
    (line : String) (rest : List String) (k : Nat)
    (h : hasPrefixStr line "data:" = false) :
    handleCozecnStreamResponse decode convert writeOk reqModel readErr (line :: rest) k
      = handleCozecnStreamResponse decode convert writeOk reqModel readErr rest k := by
  simp [handleCozecnStreamResponse, h]

/-- C10 witness: a blank keep-alive line before a `done` frame changes
nothing — the run equals the run without it, which finishes cleanly with
no chunk. -/
theorem C10_witness :
    handleCozecnStreamResponse decodeTable convertStream0 (fun _ => true) "gpt" none
        ["", "data:D"] 0
      = handleCozecnStreamResponse decodeTable convertStream0 (fun _ => true) "gpt" none
        ["data:D"] 0 ∧
    handleCozecnStreamResponse decodeTable convertStream0 (fun _ => true) "gpt" none
        ["data:D"] 0 = ([], .finished) := by
  refine ⟨C10_non_data_lines_skipped decodeTable convertStream0 (fun _ => true) "gpt" none
    "" ["data:D"] 0 (by decide), by decide⟩

/-- C6: in the non-streaming path, a non-zero envelope status code fails
with the backend error carrying the envelope's code and message; a zero
code returns the canonical completion whose model field equals the
originally requested model name (the adapter's output is overwritten). -/
theorem C6_nonstream_model_overwrite
    (readAll : Except String String) (unmarshalResp : String → Option CozeResponse)
    (convert : CozeResponse → ChatCompletionResponse)
    (decodeStream : String → Option StreamResponse)
    (convertStream : StreamResponse → ChatCompletionStreamResponse)
    (writeOk : Nat → Bool) (bodyLines : List String) (readErr : Option String)
    (oaiReq : ChatCompletionRequest) (body : String) (respJson : CozeResponse)
    (hstream : oaiReq.stream = false)
    (hread : readAll = .ok body)
    (hdec : unmarshalResp body = some respJson) :
    (respJson.code ≠ 0 →
      handleCozecnResponse readAll unmarshalResp convert decodeStream convertStream
        writeOk bodyLines readErr oaiReq
        = .failed (.backendError respJson.code respJson.msg)) ∧
    (respJson.code = 0 →
      ∃ r, handleCozecnResponse readAll unmarshalResp convert decodeStream convertStream
        writeOk bodyLines readErr oaiReq = .jsonOk r ∧ r.model = oaiReq.model) := by
  constructor
  · intro hc
    simp [handleCozecnResponse, hstream, hread, hdec, hc]
  · intro hc
    refine ⟨{ convert respJson with model := oaiReq.model }, ?_, rfl⟩
    simp [handleCozecnResponse, hstream, hread, hdec, hc]

/-- A successful backend envelope (code 0). -/
def okCoze : CozeResponse := ⟨0, "", "hello"⟩

/-- A failed backend envelope (code 42, message "boom"). -/
def errCoze : CozeResponse := ⟨42, "boom", ""⟩

/-- A concrete response adapter: it reports the backend's own model name,
which the handler must overwrite. -/
def convertResp0 : CozeResponse → ChatCompletionResponse :=
  fun r => ⟨"backend-model", r.payload⟩

/-- A concrete unmarshal oracle for the two envelope bodies. -/
def unmarshalTable : String → Option CozeResponse := fun s =>
  if s = "okbody" then some okCoze
  else if s = "errbody" then some errCoze
  else none

/-- A non-streaming request for model "gpt-x". -/
def reqNonStream : ChatCompletionRequest := ⟨"gpt-x", false⟩

/-- C6 witness: the non-zero code 42 yields the backend error 42/"boom";
the zero code yields a completion whose model is the requested "gpt-x",
not the adapter's "backend-model". -/
theorem C6_witness :
    handleCozecnResponse (.ok "errbody") unmarshalTable convertResp0 decodeTable
      convertStream0 (fun _ => true) [] none reqNonStream
      = .failed (.backendError 42 "boom") ∧
    handleCozecnResponse (.ok "okbody") unmarshalTable convertResp0 decodeTable
      convertStream0 (fun _ => true) [] none reqNonStream
      = .jsonOk ⟨"gpt-x", "hello"⟩ := by
  constructor
  · exact (C6_nonstream_model_overwrite (.ok "errbody") unmarshalTable convertResp0
      decodeTable convertStream0 (fun _ => true) [] none reqNonStream "errbody" errCoze
      rfl rfl rfl).1 (by decide)
  · rfl

/-- C7 witness: the amended theorem applied concretely — a run with a
failing first write emits the same chunk sequence as a run with all writes
succeeding. -/
theorem C7_witness :
    (handleCozecnStreamResponse decodeTable convertStream0 (fun k => k != 0) "gpt" none
        ["data:A", "data:B", "data:D"] 0).1.map Prod.fst
      = (handleCozecnStreamResponse decodeTable convertStream0 (fun _ => true) "gpt" none
        ["data:A", "data:B", "data:D"] 0).1.map Prod.fst :=
  (C7_write_failure_ignored decodeTable convertStream0 (fun k => k != 0) (fun _ => true)
    "gpt" none ["data:A", "data:B", "data:D"] 0 0).1
